import Mathlib

/-!
Verification of the PDF digital-signature service (`app/services/pdf_signer.py`)
against its natural-language specification.

The Python module is shallowly embedded: the filesystem is an association
list from file names to file contents, a PDF document is an append-only list
of events (field creations and signature applications, mirroring pyhanko's
incremental writer), and each signing method of `PDFSigner` becomes a Lean
function threading the filesystem state and returning `Except`-style errors
exactly where the Python code can raise.
-/

/-- Errors a signing invocation can surface, following the spec's taxonomy
(§7). The Python code raises library exceptions at the corresponding points. -/
inductive PdfError where
  | invalidCredential
  | documentParse
  | crypto
  | image
  | fileNotFound
deriving DecidableEq, Repr

/-- Serialization encoding selector, mirroring
`cryptography.hazmat.primitives.serialization.Encoding`. -/
inductive Encoding where
  | PEM
  | DER
deriving DecidableEq, Repr

/-- Private-key serialization format selector, mirroring
`cryptography.hazmat.primitives.serialization.PrivateFormat`. -/
inductive PrivateFormat where
  | PKCS8
  | TraditionalOpenSSL
deriving DecidableEq, Repr

/-- Key-encryption algorithm selector for private-key serialization;
`noEncryption` mirrors `NoEncryption()`. -/
inductive KeyEncryption where
  | noEncryption
  | bestAvailable
deriving DecidableEq, Repr

/-- A serialized certificate: the raw certificate identity (abstracted as a
`Nat`) together with the encoding chosen at `certificate.public_bytes(...)`. -/
structure SerializedCert where
  raw : Nat
  encoding : Encoding
deriving DecidableEq, Repr

/-- A serialized private key: the raw key identity together with the
parameters chosen at `private_key.private_bytes(...)`. -/
structure SerializedKey where
  raw : Nat
  encoding : Encoding
  format : PrivateFormat
  encryption : KeyEncryption
deriving DecidableEq, Repr

/-- A PKCS#12 bundle as the credential-extraction code observes it: whether
the container is well formed, the password that decrypts it, and the raw key
and certificate material inside. -/
structure P12Bundle where
  wellFormed : Bool
  password : String
  keyBytes : Nat
  certBytes : Nat
deriving DecidableEq, Repr

/-- A named signature-field bounding box `(x0, y0, x1, y1)` in page units,
mirroring the `box=(..)` tuples passed to `fields.SigFieldSpec`. -/
structure Box where
  x0 : Nat
  y0 : Nat
  x1 : Nat
  y1 : Nat
deriving DecidableEq, Repr

/-- A signature-field specification: the field name and its bounding box,
mirroring `fields.SigFieldSpec(name, box=...)`. -/
structure SigFieldSpec where
  name : String
  box : Box
deriving DecidableEq, Repr

/-- A visual stamp style, mirroring `stamp.TextStampStyle(stamp_text=...,
background=..., border_width=...)`; the background image is abstracted to
its raw identity. -/
structure TextStampStyle where
  stamp_text : String
  background : Nat
  border_width : Nat
deriving DecidableEq, Repr

/-- A loaded signer, mirroring `signers.SimpleSigner.load(key_path,
cert_path)`: the raw key and certificate material read back from the two
staged PEM files. -/
structure SimpleSigner where
  keyRaw : Nat
  certRaw : Nat
deriving DecidableEq, Repr

/-- One event in a PDF document's incremental-revision history: either a
signature field appended by `fields.append_signature_field`, or a
cryptographic signature embedded by `PdfSigner.sign_pdf`. A signature
records the field it fills, the signer and stamp used, and `covered`, the
number of events that existed when it was computed — the extent of the byte
stream it covers. -/
inductive Event where
  | field (spec : SigFieldSpec)
  | sig (fieldName : String) (signer : SimpleSigner) (style : TextStampStyle) (covered : Nat)
deriving DecidableEq, Repr

/-- A PDF document revision: the append-only list of events, oldest first.
pyhanko's incremental writer never rewrites prior bytes, so each revision is
a strict extension of its predecessor. -/
structure PdfDoc where
  events : List Event
deriving DecidableEq, Repr

/-- Bytes of a PDF file on disk: either a parseable document or malformed
data that `IncrementalPdfFileWriter` rejects. -/
inductive InputPdf where
  | malformed
  | parsed (d : PdfDoc)
deriving DecidableEq, Repr

/-- Contents of one file in the modelled filesystem. -/
inductive FileContent where
  | certPem (c : SerializedCert)
  | keyPem (k : SerializedKey)
  | pdf (p : InputPdf)
  | image (i : Nat)
deriving DecidableEq, Repr

/-- The filesystem: an association list from file names to contents. -/
abbrev FS := List (String × FileContent)

/-- Reads the file at path `p`, returning its contents when present. -/
def FS.read : FS → String → Option FileContent
  | [], _ => none
  | (q, c) :: fs, p => if q = p then some c else FS.read fs p

/-- Writes content `c` at path `p`, replacing any previous file there:
models Python's `open(p, "wb")` followed by a write. -/
def FS.write (fs : FS) (p : String) (c : FileContent) : FS :=
  (p, c) :: fs.filter (fun e => e.1 ≠ p)

/-- Deletes the file at path `p`: models `os.remove(p)`. -/
def FS.remove (fs : FS) (p : String) : FS :=
  fs.filter (fun e => e.1 ≠ p)

/-- Names of the signature fields present in a document revision, in
creation order: the view `enumerate_sig_fields` exposes. -/
def PdfDoc.fieldNames (d : PdfDoc) : List String :=
  d.events.filterMap fun e =>
    match e with
    | .field s => some s.name
    | .sig _ _ _ _ => none

/-- Appends a signature field to the incremental writer's document, mirroring
`fields.append_signature_field(w, sig_field_spec=...)`. -/
def append_signature_field (w : PdfDoc) (spec : SigFieldSpec) : PdfDoc :=
  ⟨w.events ++ [Event.field spec]⟩

/-- Computes a signature over the document's current byte stream and embeds
it in the named field, mirroring `pdf_signer.sign_pdf(w, output=outf)`: the
signature covers exactly the `w.events.length` events present when it is
computed, and the output revision appends the signature event. -/
def sign_pdf (w : PdfDoc) (fieldName : String) (s : SimpleSigner)
    (style : TextStampStyle) : PdfDoc :=
  ⟨w.events ++ [Event.sig fieldName s style w.events.length]⟩

/-- Modelled from the spec: the PKCS#12 decoder
`cryptography...pkcs12.load_key_and_certificates`, a library primitive whose
source is not part of this repository. Per spec §4.1 it decodes the private
key and certificate when the password is right and the bundle well formed,
and "fails with `InvalidCredential` if the password is wrong or the bundle is
malformed/unsupported". -/
def load_key_and_certificates (b : P12Bundle) (pw : String) :
    Except PdfError (Nat × Nat) :=
  if b.wellFormed = true ∧ pw = b.password then
    .ok (b.keyBytes, b.certBytes)
  else
    .error .invalidCredential

/-- Embedding of `PDFSigner.extract_cert_and_key`: loads the key and
certificate from the bundle, serializes the certificate as PEM and the key
as PEM/PKCS8 with no encryption, writes them at the fixed paths
`temp_cert.pem` and `temp_key.pem`, and returns those paths. The filesystem
is threaded through both outcomes, as a raised Python exception leaves the
filesystem as it was. -/
def extract_cert_and_key (fs : FS) (p12_data : P12Bundle) (p12_password : String) :
    FS × Except PdfError (String × String) :=
  match load_key_and_certificates p12_data p12_password with
  | .error e => (fs, .error e)
  | .ok (private_key, certificate) =>
    let cert_pem : SerializedCert := ⟨certificate, Encoding.PEM⟩
    let key_pem : SerializedKey :=
      ⟨private_key, Encoding.PEM, PrivateFormat.PKCS8, KeyEncryption.noEncryption⟩
    let cert_path := "temp_cert.pem"
    let key_path := "temp_key.pem"
    let fs := fs.write cert_path (.certPem cert_pem)
    let fs := fs.write key_path (.keyPem key_pem)
    (fs, .ok (cert_path, key_path))

/-- Embedding of `signers.SimpleSigner.load(key_path, cert_path)`: reads the
two staged PEM files back from the filesystem and assembles the signer. -/
def SimpleSigner.load (fs : FS) (key_path cert_path : String) :
    Except PdfError SimpleSigner :=
  match fs.read key_path, fs.read cert_path with
  | some (.keyPem k), some (.certPem c) => .ok ⟨k.raw, c.raw⟩
  | _, _ => .error .crypto

/-- Embedding of `PdfImage(image_path)`: reads the stamp background image,
failing when the path does not hold an image. -/
def PdfImage (fs : FS) (image_path : String) : Except PdfError Nat :=
  match fs.read image_path with
  | some (.image i) => .ok i
  | _ => .error .image

/-- Embedding of `open(path, 'rb')` + `IncrementalPdfFileWriter(inf)`: reads
a PDF file and parses it, failing with a document-parse error on malformed
bytes and a not-found error when the file is absent. -/
def IncrementalPdfFileWriter (fs : FS) (path : String) : Except PdfError PdfDoc :=
  match fs.read path with
  | some (.pdf (.parsed d)) => .ok d
  | some (.pdf .malformed) => .error .documentParse
  | some _ => .error .documentParse
  | none => .error .fileNotFound

/-- The stamp style every signing method builds: text template with the
signer and timestamp tokens, the loaded image as background, border width
zero. -/
def dtrStampStyle (pdf_image : Nat) : TextStampStyle :=
  ⟨"\n\n\nSigned by: %(signer)s\nDate Signed: %(ts)s", pdf_image, 0⟩

/-- Embedding of `PDFSigner.dtr_sign_pdf_sync_owner`: extracts the
credential to the fixed temp paths, loads the signer and stamp image,
appends and signs `OwnerSignature1`, writes the intermediate revision at the
fixed path `intermediate_output.pdf`, reopens it, appends and signs
`OwnerSignature2` into `output_path`, then removes the three temp files.
Box y-coordinates are raised by `adjust_y = 0 if whole_month else 250`.
Every early return carries the filesystem as the raised exception leaves it. -/
def dtr_sign_pdf_sync_owner (fs : FS) (input_path output_path image_path : String)
    (p12_data : P12Bundle) (p12_password : String) (whole_month : Bool) :
    FS × Except PdfError Unit :=
  match extract_cert_and_key fs p12_data p12_password with
  | (fs, .error e) => (fs, .error e)
  | (fs, .ok (cert_path, key_path)) =>
    match SimpleSigner.load fs key_path cert_path with
    | .error e => (fs, .error e)
    | .ok signer =>
      match PdfImage fs image_path with
      | .error e => (fs, .error e)
      | .ok pdf_image =>
        let adjust_y := if whole_month then 0 else 250
        match IncrementalPdfFileWriter fs input_path with
        | .error e => (fs, .error e)
        | .ok w =>
          let w := append_signature_field w
            ⟨"OwnerSignature1", ⟨50, 105 + adjust_y, 250, 165 + adjust_y⟩⟩
          let intermediate_output := "intermediate_output.pdf"
          let signed1 := sign_pdf w "OwnerSignature1" signer (dtrStampStyle pdf_image)
          let fs := fs.write intermediate_output (.pdf (.parsed signed1))
          match IncrementalPdfFileWriter fs intermediate_output with
          | .error e => (fs, .error e)
          | .ok w2 =>
            let w2 := append_signature_field w2
              ⟨"OwnerSignature2", ⟨360, 105 + adjust_y, 560, 165 + adjust_y⟩⟩
            let signed2 := sign_pdf w2 "OwnerSignature2" signer (dtrStampStyle pdf_image)
            let fs := fs.write output_path (.pdf (.parsed signed2))
            let fs := ((fs.remove cert_path).remove key_path).remove intermediate_output
            (fs, .ok ())

/-- Embedding of `PDFSigner.dtr_sign_pdf_sync_incharge`: identical pipeline
shape to the owner variant, with `adjust_y = 0 if whole_month else 255`,
boxes anchored at y 70/130, and one difference: before appending
`InchargeSignature1` it checks `'InchargeSignature1' in
enumerate_sig_fields(w)` and skips the append when the field already
exists. `InchargeSignature2` is appended unconditionally. -/
def dtr_sign_pdf_sync_incharge (fs : FS) (input_path output_path image_path : String)
    (p12_data : P12Bundle) (p12_password : String) (whole_month : Bool) :
    FS × Except PdfError Unit :=
  match extract_cert_and_key fs p12_data p12_password with
  | (fs, .error e) => (fs, .error e)
  | (fs, .ok (cert_path, key_path)) =>
    match SimpleSigner.load fs key_path cert_path with
    | .error e => (fs, .error e)
    | .ok signer =>
      match PdfImage fs image_path with
      | .error e => (fs, .error e)
      | .ok pdf_image =>
        let adjust_y := if whole_month then 0 else 255
        match IncrementalPdfFileWriter fs input_path with
        | .error e => (fs, .error e)
        | .ok w =>
          let field_exists := "InchargeSignature1" ∈ w.fieldNames
          let w :=
            if field_exists then w
            else append_signature_field w
              ⟨"InchargeSignature1", ⟨50, 70 + adjust_y, 250, 130 + adjust_y⟩⟩
          let intermediate_output := "intermediate_output.pdf"
          let signed1 := sign_pdf w "InchargeSignature1" signer (dtrStampStyle pdf_image)
          let fs := fs.write intermediate_output (.pdf (.parsed signed1))
          match IncrementalPdfFileWriter fs intermediate_output with
          | .error e => (fs, .error e)
          | .ok w2 =>
            let w2 := append_signature_field w2
              ⟨"InchargeSignature2", ⟨360, 70 + adjust_y, 560, 130 + adjust_y⟩⟩
            let signed2 := sign_pdf w2 "InchargeSignature2" signer (dtrStampStyle pdf_image)
            let fs := fs.write output_path (.pdf (.parsed signed2))
            let fs := ((fs.remove cert_path).remove key_path).remove intermediate_output
            (fs, .ok ())

/-- Embedding of the single-field leave-application signing methods, which
differ only in the field name and box anchor `(x, y)`; the box is always
`(x, y, x + 220, y + 70)`. The method appends the field, signs it into
`output_path`, and removes the two staged credential files (these methods
produce no intermediate revision). -/
def leave_application_sign_pdf_sync (fieldName : String) (x y : Nat)
    (fs : FS) (input_path output_path image_path : String)
    (p12_data : P12Bundle) (p12_password : String) :
    FS × Except PdfError Unit :=
  match extract_cert_and_key fs p12_data p12_password with
  | (fs, .error e) => (fs, .error e)
  | (fs, .ok (cert_path, key_path)) =>
    match SimpleSigner.load fs key_path cert_path with
    | .error e => (fs, .error e)
    | .ok signer =>
      match PdfImage fs image_path with
      | .error e => (fs, .error e)
      | .ok pdf_image =>
        let x2 := x + 220
        let y2 := y + 70
        match IncrementalPdfFileWriter fs input_path with
        | .error e => (fs, .error e)
        | .ok w =>
          let w := append_signature_field w ⟨fieldName, ⟨x, y, x2, y2⟩⟩
          let signed := sign_pdf w fieldName signer (dtrStampStyle pdf_image)
          let fs := fs.write output_path (.pdf (.parsed signed))
          let fs := (fs.remove cert_path).remove key_path
          (fs, .ok ())

/-- Embedding of `PDFSigner.leave_application_sign_pdf_sync_owner`: field
`OwnerSignature2` at anchor `x = 330`, `y = 535`. -/
def leave_application_sign_pdf_sync_owner :
    FS → String → String → String → P12Bundle → String → FS × Except PdfError Unit :=
  leave_application_sign_pdf_sync "OwnerSignature2" 330 535

/-- Embedding of `PDFSigner.leave_application_sign_pdf_sync_head`: field
`HeadSignature2` at anchor `x = 330`, `y = 355`. -/
def leave_application_sign_pdf_sync_head :
    FS → String → String → String → P12Bundle → String → FS × Except PdfError Unit :=
  leave_application_sign_pdf_sync "HeadSignature2" 330 355

/-- Embedding of `PDFSigner.leave_application_sign_pdf_sync_sao`: field
`SaoSignature2` at anchor `x = 50`, `y = 355`. -/
def leave_application_sign_pdf_sync_sao :
    FS → String → String → String → P12Bundle → String → FS × Except PdfError Unit :=
  leave_application_sign_pdf_sync "SaoSignature2" 50 355

/-- Embedding of `PDFSigner.leave_application_sign_pdf_sync_cao`: field
`CaoSignature2` at anchor `x = 200`, `y = 155`. -/
def leave_application_sign_pdf_sync_cao :
    FS → String → String → String → P12Bundle → String → FS × Except PdfError Unit :=
  leave_application_sign_pdf_sync "CaoSignature2" 200 155

/-- A fixed well-formed PKCS#12 bundle used to drive the canonical runs: key
material `11`, certificate material `12`, password `"secret"`. -/
def goodBundle : P12Bundle := ⟨true, "secret", 11, 12⟩

/-- The canonical initial filesystem for a signing invocation: the input
document at `in.pdf` and the stamp image at `sig.png`. -/
def stagedFS (d : PdfDoc) : FS :=
  [("in.pdf", .pdf (.parsed d)), ("sig.png", .image 7)]

/-- The signer that `SimpleSigner.load` assembles from `goodBundle`'s staged
PEM files. -/
def theSigner : SimpleSigner := ⟨11, 12⟩

/-- The DTR owner operation run on the canonical filesystem with the good
bundle. -/
def ownerRun (wm : Bool) (d : PdfDoc) : FS × Except PdfError Unit :=
  dtr_sign_pdf_sync_owner (stagedFS d) "in.pdf" "out.pdf" "sig.png" goodBundle "secret" wm

/-- The DTR incharge operation run on the canonical filesystem with the good
bundle. -/
def inchargeRun (wm : Bool) (d : PdfDoc) : FS × Except PdfError Unit :=
  dtr_sign_pdf_sync_incharge (stagedFS d) "in.pdf" "out.pdf" "sig.png" goodBundle "secret" wm

/-- A leave-application operation run on the canonical filesystem with the
good bundle. -/
def leaveRun (op : FS → String → String → String → P12Bundle → String → FS × Except PdfError Unit)
    (d : PdfDoc) : FS × Except PdfError Unit :=
  op (stagedFS d) "in.pdf" "out.pdf" "sig.png" goodBundle "secret"

/-- The document a run leaves at `out.pdf`, when the run produced one. -/
def outputDoc (r : FS × Except PdfError Unit) : Option PdfDoc :=
  match r.1.read "out.pdf" with
  | some (.pdf (.parsed d)) => some d
  | _ => none

/-- Event list of an optional document (empty when absent). -/
def docEvents : Option PdfDoc → List Event
  | some d => d.events
  | none => []

/-- The signature-field specifications appended after position `n` of an
event stream: the fields an invocation created on top of an `n`-event input
document. -/
def createdFieldsAfter (es : List Event) (n : Nat) : List SigFieldSpec :=
  (es.drop n).filterMap fun e =>
    match e with
    | .field s => some s
    | .sig _ _ _ _ => none

/-- Events of the document a run leaves at `out.pdf`. -/
def outEvents (r : FS × Except PdfError Unit) : List Event :=
  docEvents (outputDoc r)

/-- Fields created by an owner run on top of input document `d`. -/
def ownerFields (wm : Bool) (d : PdfDoc) : List SigFieldSpec :=
  createdFieldsAfter (outEvents (ownerRun wm d)) d.events.length

/-- Fields created by an incharge run on top of input document `d`. -/
def inchargeFields (wm : Bool) (d : PdfDoc) : List SigFieldSpec :=
  createdFieldsAfter (outEvents (inchargeRun wm d)) d.events.length

/-- Fields created by a leave-application run on top of input document `d`. -/
def leaveFields (op : FS → String → String → String → P12Bundle → String → FS × Except PdfError Unit)
    (d : PdfDoc) : List SigFieldSpec :=
  createdFieldsAfter (outEvents (leaveRun op d)) d.events.length

/-- Shifts both y-coordinates of a box by `c`, leaving x-coordinates
unchanged: the spec's "(0, c)" shift. -/
def boxShiftY (c : Nat) (b : Box) : Box := ⟨b.x0, b.y0 + c, b.x1, b.y1 + c⟩

/-- Translates a box by `c` along x, leaving its vertical extent unchanged. -/
def boxTranslateX (c : Nat) (b : Box) : Box := ⟨b.x0 + c, b.y0, b.x1 + c, b.y1⟩

/-- Applies a y-shift to a field specification's box, keeping the name. -/
def specShiftY (c : Nat) (s : SigFieldSpec) : SigFieldSpec := ⟨s.name, boxShiftY c s.box⟩

/-- Events an owner run appends on top of an `n`-event input: field and
signature for `OwnerSignature1`, then field and signature for
`OwnerSignature2`, with the signatures covering `n + 1` and `n + 3` events
respectively. -/
def ownerNewEvents (a : Nat) (n : Nat) : List Event :=
  [ .field ⟨"OwnerSignature1", ⟨50, 105 + a, 250, 165 + a⟩⟩,
    .sig "OwnerSignature1" theSigner (dtrStampStyle 7) (n + 1),
    .field ⟨"OwnerSignature2", ⟨360, 105 + a, 560, 165 + a⟩⟩,
    .sig "OwnerSignature2" theSigner (dtrStampStyle 7) (n + 3) ]

/-- Events an incharge run appends when the input document has no
`InchargeSignature1` field yet. -/
def inchargeNewEventsFresh (a : Nat) (n : Nat) : List Event :=
  [ .field ⟨"InchargeSignature1", ⟨50, 70 + a, 250, 130 + a⟩⟩,
    .sig "InchargeSignature1" theSigner (dtrStampStyle 7) (n + 1),
    .field ⟨"InchargeSignature2", ⟨360, 70 + a, 560, 130 + a⟩⟩,
    .sig "InchargeSignature2" theSigner (dtrStampStyle 7) (n + 3) ]

/-- Events an incharge run appends when the input document already has an
`InchargeSignature1` field: no new first field, only its signature, then the
second field and signature. -/
def inchargeNewEventsReentrant (a : Nat) (n : Nat) : List Event :=
  [ .sig "InchargeSignature1" theSigner (dtrStampStyle 7) n,
    .field ⟨"InchargeSignature2", ⟨360, 70 + a, 560, 130 + a⟩⟩,
    .sig "InchargeSignature2" theSigner (dtrStampStyle 7) (n + 2) ]

/-- Events a leave-application run appends: one field and its signature. -/
def leaveNewEvents (fieldName : String) (x y : Nat) (n : Nat) : List Event :=
  [ .field ⟨fieldName, ⟨x, y, x + 220, y + 70⟩⟩,
    .sig fieldName theSigner (dtrStampStyle 7) (n + 1) ]

/-- The owner role's first-field box as the source computes it: base
coordinates `(50, 105, 250, 165)` with `adjust_y = 0 if whole_month else
250` added to both y-coordinates. -/
def ownerBase (wm : Bool) : Box :=
  ⟨50, 105 + (if wm then 0 else 250), 250, 165 + (if wm then 0 else 250)⟩

/-- The incharge role's first-field box as the source computes it: base
coordinates `(50, 70, 250, 130)` with `adjust_y = 0 if whole_month else
255` added to both y-coordinates. -/
def inchargeBase (wm : Bool) : Box :=
  ⟨50, 70 + (if wm then 0 else 255), 250, 130 + (if wm then 0 else 255)⟩

/-- The owner run succeeds on the canonical filesystem and writes at
`out.pdf` the input document extended by exactly `ownerNewEvents`, with the
y-adjustment `0` when `whole_month` and `250` otherwise. -/
theorem ownerRun_out (wm : Bool) (d : PdfDoc) :
    (ownerRun wm d).2 = .ok () ∧
    (ownerRun wm d).1.read "out.pdf" =
      some (.pdf (.parsed ⟨d.events ++ ownerNewEvents (if wm then 0 else 250) d.events.length⟩)) := by
  cases wm <;>
    simp [ownerRun, dtr_sign_pdf_sync_owner, extract_cert_and_key,
      load_key_and_certificates, goodBundle, stagedFS, FS.write, FS.read, FS.remove,
      SimpleSigner.load, PdfImage, IncrementalPdfFileWriter, append_signature_field,
      sign_pdf, ownerNewEvents, theSigner, dtrStampStyle]

/-- The incharge run on a document with no `InchargeSignature1` field
succeeds and writes the input extended by `inchargeNewEventsFresh`, with the
y-adjustment `0` when `whole_month` and `255` otherwise. -/
theorem inchargeRun_out_fresh (wm : Bool) (d : PdfDoc)
    (h : "InchargeSignature1" ∉ d.fieldNames) :
    (inchargeRun wm d).2 = .ok () ∧
    (inchargeRun wm d).1.read "out.pdf" =
      some (.pdf (.parsed ⟨d.events ++ inchargeNewEventsFresh (if wm then 0 else 255) d.events.length⟩)) := by
  cases wm <;>
    simp [inchargeRun, dtr_sign_pdf_sync_incharge, extract_cert_and_key,
      load_key_and_certificates, goodBundle, stagedFS, FS.write, FS.read, FS.remove,
      SimpleSigner.load, PdfImage, IncrementalPdfFileWriter, append_signature_field,
      sign_pdf, inchargeNewEventsFresh, theSigner, dtrStampStyle, h]

/-- The incharge run on a document that already has an `InchargeSignature1`
field succeeds, skips re-creating that field, and writes the input extended
by `inchargeNewEventsReentrant`. -/
theorem inchargeRun_out_reentrant (wm : Bool) (d : PdfDoc)
    (h : "InchargeSignature1" ∈ d.fieldNames) :
    (inchargeRun wm d).2 = .ok () ∧
    (inchargeRun wm d).1.read "out.pdf" =
      some (.pdf (.parsed ⟨d.events ++ inchargeNewEventsReentrant (if wm then 0 else 255) d.events.length⟩)) := by
  cases wm <;>
    simp [inchargeRun, dtr_sign_pdf_sync_incharge, extract_cert_and_key,
      load_key_and_certificates, goodBundle, stagedFS, FS.write, FS.read, FS.remove,
      SimpleSigner.load, PdfImage, IncrementalPdfFileWriter, append_signature_field,
      sign_pdf, inchargeNewEventsReentrant, theSigner, dtrStampStyle, h]

/-- A generic leave-application run succeeds and writes the input extended
by `leaveNewEvents`. -/
theorem leaveRun_out (fieldName : String) (x y : Nat) (d : PdfDoc) :
    (leaveRun (leave_application_sign_pdf_sync fieldName x y) d).2 = .ok () ∧
    (leaveRun (leave_application_sign_pdf_sync fieldName x y) d).1.read "out.pdf" =
      some (.pdf (.parsed ⟨d.events ++ leaveNewEvents fieldName x y d.events.length⟩)) := by
  simp [leaveRun, leave_application_sign_pdf_sync, extract_cert_and_key,
    load_key_and_certificates, goodBundle, stagedFS, FS.write, FS.read, FS.remove,
    SimpleSigner.load, PdfImage, IncrementalPdfFileWriter, append_signature_field,
    sign_pdf, leaveNewEvents, theSigner, dtrStampStyle]

/-- The owner run creates exactly the two owner fields, with the
y-adjustment applied to both boxes. -/
theorem ownerFields_eq (wm : Bool) (d : PdfDoc) :
    ownerFields wm d =
      [ ⟨"OwnerSignature1", ⟨50, 105 + (if wm then 0 else 250), 250, 165 + (if wm then 0 else 250)⟩⟩,
        ⟨"OwnerSignature2", ⟨360, 105 + (if wm then 0 else 250), 560, 165 + (if wm then 0 else 250)⟩⟩ ] := by
  have h := (ownerRun_out wm d).2
  simp [ownerFields, outEvents, outputDoc, h, docEvents, createdFieldsAfter,
    List.drop_left, ownerNewEvents]

/-- The incharge run on a fresh document creates exactly its two fields. -/
theorem inchargeFields_fresh_eq (wm : Bool) (d : PdfDoc)
    (h : "InchargeSignature1" ∉ d.fieldNames) :
    inchargeFields wm d =
      [ ⟨"InchargeSignature1", ⟨50, 70 + (if wm then 0 else 255), 250, 130 + (if wm then 0 else 255)⟩⟩,
        ⟨"InchargeSignature2", ⟨360, 70 + (if wm then 0 else 255), 560, 130 + (if wm then 0 else 255)⟩⟩ ] := by
  have h3 := (inchargeRun_out_fresh wm d h).2
  simp [inchargeFields, outEvents, outputDoc, h3, docEvents, createdFieldsAfter,
    List.drop_left, inchargeNewEventsFresh]

/-- The incharge run on a document already holding `InchargeSignature1`
creates only the second field. -/
theorem inchargeFields_reentrant_eq (wm : Bool) (d : PdfDoc)
    (h : "InchargeSignature1" ∈ d.fieldNames) :
    inchargeFields wm d =
      [ ⟨"InchargeSignature2", ⟨360, 70 + (if wm then 0 else 255), 560, 130 + (if wm then 0 else 255)⟩⟩ ] := by
  have h2 := (inchargeRun_out_reentrant wm d h).2
  simp [inchargeFields, outEvents, outputDoc, h2, docEvents, createdFieldsAfter,
    List.drop_left, inchargeNewEventsReentrant]

/-- A leave-application run creates exactly its one 220-wide, 70-high
field. -/
theorem leaveFields_eq (fieldName : String) (x y : Nat) (d : PdfDoc) :
    leaveFields (leave_application_sign_pdf_sync fieldName x y) d =
      [⟨fieldName, ⟨x, y, x + 220, y + 70⟩⟩] := by
  have h := (leaveRun_out fieldName x y d).2
  simp [leaveFields, outEvents, outputDoc, h, docEvents, createdFieldsAfter,
    List.drop_left, leaveNewEvents]

/-- C1: for the two DTR signing operations, the signature-field boxes are
the role's base boxes adjusted by a vertical offset that depends only on
`whole_month`: no shift when true, and when false both y-coordinates of
every box for that role shifted by the role-specific constant (Owner: 250,
Incharge: 255, the spec's "(0, c)" shift of §8), with all x-coordinates
unchanged. -/
theorem dtr_layout_vertical_offset (d : PdfDoc) :
    ownerFields false d = (ownerFields true d).map (specShiftY 250) ∧
    inchargeFields false d = (inchargeFields true d).map (specShiftY 255) ∧
    (∀ wm : Bool, (ownerFields wm d).map (fun s => (s.box.x0, s.box.x1)) =
      (ownerFields true d).map (fun s => (s.box.x0, s.box.x1))) ∧
    (∀ wm : Bool, (inchargeFields wm d).map (fun s => (s.box.x0, s.box.x1)) =
      (inchargeFields true d).map (fun s => (s.box.x0, s.box.x1))) := by
  by_cases h : "InchargeSignature1" ∈ d.fieldNames
  · refine ⟨?_, ?_, ?_, ?_⟩
    · simp [ownerFields_eq, specShiftY, boxShiftY]
    · simp [inchargeFields_reentrant_eq _ _ h, specShiftY, boxShiftY]
    · intro wm; cases wm <;> simp [ownerFields_eq]
    · intro wm; cases wm <;> simp [inchargeFields_reentrant_eq _ _ h]
  · refine ⟨?_, ?_, ?_, ?_⟩
    · simp [ownerFields_eq, specShiftY, boxShiftY]
    · simp [inchargeFields_fresh_eq _ _ h, specShiftY, boxShiftY]
    · intro wm; cases wm <;> simp [ownerFields_eq]
    · intro wm; cases wm <;> simp [inchargeFields_fresh_eq _ _ h]

/-- C2: for every `whole_month` value the owner operation produces exactly
the two fields `OwnerSignature1`/`OwnerSignature2`; with `whole_month =
true` the boxes are `(50,105,250,165)` and `(360,105,560,165)`, with false
the same shifted by `(0,250)`; incharge with false shifts its base by
`(0,255)`; and for both DTR roles the second box is the first translated by
`+310` in x with identical vertical extent. -/
theorem dtr_layout_boxes (wm : Bool) (d : PdfDoc)
    (h : "InchargeSignature1" ∉ d.fieldNames) :
    ownerFields wm d =
      [ ⟨"OwnerSignature1", ownerBase wm⟩,
        ⟨"OwnerSignature2", boxTranslateX 310 (ownerBase wm)⟩ ] ∧
    ownerBase true = ⟨50, 105, 250, 165⟩ ∧
    boxTranslateX 310 (ownerBase true) = ⟨360, 105, 560, 165⟩ ∧
    ownerBase false = boxShiftY 250 (ownerBase true) ∧
    inchargeFields wm d =
      [ ⟨"InchargeSignature1", inchargeBase wm⟩,
        ⟨"InchargeSignature2", boxTranslateX 310 (inchargeBase wm)⟩ ] ∧
    inchargeBase false = boxShiftY 255 (inchargeBase true) := by
  refine ⟨?_, by decide, by decide, by decide, ?_, by decide⟩
  · cases wm <;> simp [ownerFields_eq, ownerBase, boxTranslateX]
  · cases wm <;> simp [inchargeFields_fresh_eq _ _ h, inchargeBase, boxTranslateX]

/-- Witness for C2: the layout equalities instantiated at `whole_month =
true` on the empty document. -/
theorem dtr_layout_boxes_w :
    ("InchargeSignature1" ∉ PdfDoc.fieldNames ⟨[]⟩) ∧
    (ownerFields true ⟨[]⟩ =
      [ ⟨"OwnerSignature1", ownerBase true⟩,
        ⟨"OwnerSignature2", boxTranslateX 310 (ownerBase true)⟩ ] ∧
    ownerBase true = ⟨50, 105, 250, 165⟩ ∧
    boxTranslateX 310 (ownerBase true) = ⟨360, 105, 560, 165⟩ ∧
    ownerBase false = boxShiftY 250 (ownerBase true) ∧
    inchargeFields true ⟨[]⟩ =
      [ ⟨"InchargeSignature1", inchargeBase true⟩,
        ⟨"InchargeSignature2", boxTranslateX 310 (inchargeBase true)⟩ ] ∧
    inchargeBase false = boxShiftY 255 (inchargeBase true)) :=
  ⟨by decide, dtr_layout_boxes true ⟨[]⟩ (by decide)⟩

/-- C8: each single-field leave role produces exactly one field, 220 units
wide and 70 units high at its role-specific anchor, with the role-specific
"2"-suffixed name; the leave operations take no whole-month parameter at
all, as their embedded types show. -/
theorem leave_single_field_layout (d : PdfDoc) :
    leaveFields leave_application_sign_pdf_sync_owner d =
      [⟨"OwnerSignature2", ⟨330, 535, 330 + 220, 535 + 70⟩⟩] ∧
    leaveFields leave_application_sign_pdf_sync_head d =
      [⟨"HeadSignature2", ⟨330, 355, 330 + 220, 355 + 70⟩⟩] ∧
    leaveFields leave_application_sign_pdf_sync_sao d =
      [⟨"SaoSignature2", ⟨50, 355, 50 + 220, 355 + 70⟩⟩] ∧
    leaveFields leave_application_sign_pdf_sync_cao d =
      [⟨"CaoSignature2", ⟨200, 155, 200 + 220, 155 + 70⟩⟩] :=
  ⟨leaveFields_eq "OwnerSignature2" 330 535 d, leaveFields_eq "HeadSignature2" 330 355 d,
   leaveFields_eq "SaoSignature2" 50 355 d, leaveFields_eq "CaoSignature2" 200 155 d⟩

/-- C3: a document that already contains a field named `InchargeSignature1`
is not given a second field of that name by the incharge operation, and the
existing field still receives a signature; the pre-existence check exists
only there — the owner operation's two fields, the incharge second field,
and every leave role's field are appended unconditionally, for every input
document. -/
theorem incharge_duplicate_guard (wm : Bool) (d : PdfDoc)
    (h : "InchargeSignature1" ∈ d.fieldNames) :
    outEvents (inchargeRun wm d) =
      d.events ++ inchargeNewEventsReentrant (if wm then 0 else 255) d.events.length ∧
    "InchargeSignature1" ∉ (inchargeFields wm d).map SigFieldSpec.name ∧
    Event.sig "InchargeSignature1" theSigner (dtrStampStyle 7) d.events.length
      ∈ outEvents (inchargeRun wm d) ∧
    (∀ d' : PdfDoc,
      (ownerFields wm d').map SigFieldSpec.name = ["OwnerSignature1", "OwnerSignature2"]) ∧
    (∀ d' : PdfDoc, "InchargeSignature2" ∈ (inchargeFields wm d').map SigFieldSpec.name) ∧
    (∀ d' : PdfDoc,
      (leaveFields leave_application_sign_pdf_sync_owner d').map SigFieldSpec.name = ["OwnerSignature2"] ∧
      (leaveFields leave_application_sign_pdf_sync_head d').map SigFieldSpec.name = ["HeadSignature2"] ∧
      (leaveFields leave_application_sign_pdf_sync_sao d').map SigFieldSpec.name = ["SaoSignature2"] ∧
      (leaveFields leave_application_sign_pdf_sync_cao d').map SigFieldSpec.name = ["CaoSignature2"]) := by
  have hrun := (inchargeRun_out_reentrant wm d h).2
  refine ⟨?_, ?_, ?_, ?_, ?_, ?_⟩
  · simp [outEvents, outputDoc, hrun, docEvents]
  · simp [inchargeFields_reentrant_eq _ _ h]
  · simp [outEvents, outputDoc, hrun, docEvents, inchargeNewEventsReentrant]
  · intro d'; simp [ownerFields_eq]
  · intro d'
    by_cases h' : "InchargeSignature1" ∈ d'.fieldNames
    · simp [inchargeFields_reentrant_eq _ _ h']
    · simp [inchargeFields_fresh_eq _ _ h']
  · intro d'
    exact ⟨by simpa using congrArg (List.map SigFieldSpec.name) (leaveFields_eq "OwnerSignature2" 330 535 d'),
      by simpa using congrArg (List.map SigFieldSpec.name) (leaveFields_eq "HeadSignature2" 330 355 d'),
      by simpa using congrArg (List.map SigFieldSpec.name) (leaveFields_eq "SaoSignature2" 50 355 d'),
      by simpa using congrArg (List.map SigFieldSpec.name) (leaveFields_eq "CaoSignature2" 200 155 d')⟩

/-- Witness for C3: a one-field document already holding
`InchargeSignature1` is not given a second field of that name. -/
theorem incharge_duplicate_guard_w :
    ("InchargeSignature1" ∈ PdfDoc.fieldNames ⟨[.field ⟨"InchargeSignature1", ⟨50, 70, 250, 130⟩⟩]⟩) ∧
    "InchargeSignature1" ∉
      (inchargeFields true ⟨[.field ⟨"InchargeSignature1", ⟨50, 70, 250, 130⟩⟩]⟩).map SigFieldSpec.name :=
  ⟨by decide,
   (incharge_duplicate_guard true ⟨[.field ⟨"InchargeSignature1", ⟨50, 70, 250, 130⟩⟩]⟩ (by decide)).2.1⟩

/-- C4: for the two-field DTR roles the signing steps are strictly
sequential: the output event stream decomposes as the first signing step's
output followed by exactly the second field and second signature; the
second signature covers `n + 3` events, a range that contains the first
signature (sitting at position `n + 1`); and the byte stream the first
signature covered is an unchanged initial segment of the final output, so the first
signature remains valid after the second is applied. -/
theorem dtr_sequential_chaining (wm : Bool) (d : PdfDoc)
    (h : "InchargeSignature1" ∉ d.fieldNames) :
    (outEvents (ownerRun wm d) =
      (d.events ++
        [Event.field ⟨"OwnerSignature1",
            ⟨50, 105 + (if wm then 0 else 250), 250, 165 + (if wm then 0 else 250)⟩⟩,
         Event.sig "OwnerSignature1" theSigner (dtrStampStyle 7) (d.events.length + 1)]) ++
        [Event.field ⟨"OwnerSignature2",
            ⟨360, 105 + (if wm then 0 else 250), 560, 165 + (if wm then 0 else 250)⟩⟩,
         Event.sig "OwnerSignature2" theSigner (dtrStampStyle 7) (d.events.length + 3)]) ∧
    Event.sig "OwnerSignature1" theSigner (dtrStampStyle 7) (d.events.length + 1)
      ∈ (outEvents (ownerRun wm d)).take (d.events.length + 3) ∧
    (outEvents (ownerRun wm d)).take (d.events.length + 2) =
      d.events ++
        [Event.field ⟨"OwnerSignature1",
            ⟨50, 105 + (if wm then 0 else 250), 250, 165 + (if wm then 0 else 250)⟩⟩,
         Event.sig "OwnerSignature1" theSigner (dtrStampStyle 7) (d.events.length + 1)] ∧
    (outEvents (inchargeRun wm d) =
      (d.events ++
        [Event.field ⟨"InchargeSignature1",
            ⟨50, 70 + (if wm then 0 else 255), 250, 130 + (if wm then 0 else 255)⟩⟩,
         Event.sig "InchargeSignature1" theSigner (dtrStampStyle 7) (d.events.length + 1)]) ++
        [Event.field ⟨"InchargeSignature2",
            ⟨360, 70 + (if wm then 0 else 255), 560, 130 + (if wm then 0 else 255)⟩⟩,
         Event.sig "InchargeSignature2" theSigner (dtrStampStyle 7) (d.events.length + 3)]) ∧
    Event.sig "InchargeSignature1" theSigner (dtrStampStyle 7) (d.events.length + 1)
      ∈ (outEvents (inchargeRun wm d)).take (d.events.length + 3) ∧
    (outEvents (inchargeRun wm d)).take (d.events.length + 2) =
      d.events ++
        [Event.field ⟨"InchargeSignature1",
            ⟨50, 70 + (if wm then 0 else 255), 250, 130 + (if wm then 0 else 255)⟩⟩,
         Event.sig "InchargeSignature1" theSigner (dtrStampStyle 7) (d.events.length + 1)] := by
  have ho := (ownerRun_out wm d).2
  have hi := (inchargeRun_out_fresh wm d h).2
  refine ⟨?_, ?_, ?_, ?_, ?_, ?_⟩ <;>
    simp [outEvents, outputDoc, ho, hi, docEvents, ownerNewEvents, inchargeNewEventsFresh,
      List.take_append_eq_append_take, List.take_of_length_le, List.mem_take_iff_getElem]

/-- Witness for C4: the sequential decomposition instantiated at
`whole_month = true` on the empty document. -/
theorem dtr_sequential_chaining_w :
    ("InchargeSignature1" ∉ PdfDoc.fieldNames ⟨[]⟩) ∧
    outEvents (ownerRun true ⟨[]⟩) =
      (([] : List Event) ++
        [Event.field ⟨"OwnerSignature1", ⟨50, 105 + 0, 250, 165 + 0⟩⟩,
         Event.sig "OwnerSignature1" theSigner (dtrStampStyle 7) ((List.length ([] : List Event)) + 1)]) ++
        [Event.field ⟨"OwnerSignature2", ⟨360, 105 + 0, 560, 165 + 0⟩⟩,
         Event.sig "OwnerSignature2" theSigner (dtrStampStyle 7) ((List.length ([] : List Event)) + 3)] :=
  ⟨by decide, by simpa using (dtr_sequential_chaining true ⟨[]⟩ (by decide)).1⟩

/-- C5 evidence (code bug): the staged credential files of every successful
invocation are the same fixed global names `temp_cert.pem` / `temp_key.pem`
— two distinct invocations never get disjoint ephemeral names — and an
owner invocation deletes whatever file another party left at the fixed
intermediate name `intermediate_output.pdf`. -/
theorem ephemeral_names_fixed (fs fs' : FS) (b b' : P12Bundle) (pw pw' : String)
    (hw : b.wellFormed = true) (hp : pw = b.password)
    (hw' : b'.wellFormed = true) (hp' : pw' = b'.password) :
    (extract_cert_and_key fs b pw).2 = .ok ("temp_cert.pem", "temp_key.pem") ∧
    (extract_cert_and_key fs' b' pw').2 = .ok ("temp_cert.pem", "temp_key.pem") ∧
    (dtr_sign_pdf_sync_owner
        [("in.pdf", .pdf (.parsed ⟨[]⟩)), ("sig.png", .image 7),
         ("intermediate_output.pdf", .pdf (.parsed ⟨[.field ⟨"Other", ⟨0, 0, 1, 1⟩⟩]⟩))]
        "in.pdf" "out.pdf" "sig.png" goodBundle "secret" true).1.read
      "intermediate_output.pdf" = none := by
  subst hp hp'
  refine ⟨?_, ?_, by decide⟩ <;>
    simp [extract_cert_and_key, load_key_and_certificates, hw, hw']

/-- Witness for C5: two concrete invocations with different bundles and
filesystems stage their credentials under the same names. -/
theorem ephemeral_names_fixed_w :
    (goodBundle.wellFormed = true ∧ "secret" = goodBundle.password) ∧
    (extract_cert_and_key [] goodBundle "secret").2 = .ok ("temp_cert.pem", "temp_key.pem") ∧
    (extract_cert_and_key [("a.txt", .image 0)] ⟨true, "pw2", 1, 2⟩ "pw2").2 =
      .ok ("temp_cert.pem", "temp_key.pem") :=
  ⟨⟨by decide, by decide⟩,
   (ephemeral_names_fixed [] [("a.txt", .image 0)] goodBundle ⟨true, "pw2", 1, 2⟩ "secret" "pw2"
      (by decide) (by decide) (by decide) (by decide)).1,
   (ephemeral_names_fixed [] [("a.txt", .image 0)] goodBundle ⟨true, "pw2", 1, 2⟩ "secret" "pw2"
      (by decide) (by decide) (by decide) (by decide)).2.1⟩

/-- C6 evidence (code bug): when the input document is malformed the owner
invocation fails with a document-parse error after staging its credential
files, and those files are NOT erased on that exit path (the Python code
has no try/finally around its `os.remove` calls); no output is produced.
The incharge operation leaks the staged key file the same way. -/
theorem parse_failure_keeps_staged_credentials :
    (dtr_sign_pdf_sync_owner [("in.pdf", .pdf .malformed), ("sig.png", .image 7)]
        "in.pdf" "out.pdf" "sig.png" goodBundle "secret" true).2 = .error .documentParse ∧
    (dtr_sign_pdf_sync_owner [("in.pdf", .pdf .malformed), ("sig.png", .image 7)]
        "in.pdf" "out.pdf" "sig.png" goodBundle "secret" true).1.read "temp_cert.pem" =
      some (.certPem ⟨12, .PEM⟩) ∧
    (dtr_sign_pdf_sync_owner [("in.pdf", .pdf .malformed), ("sig.png", .image 7)]
        "in.pdf" "out.pdf" "sig.png" goodBundle "secret" true).1.read "temp_key.pem" =
      some (.keyPem ⟨11, .PEM, .PKCS8, .noEncryption⟩) ∧
    (dtr_sign_pdf_sync_owner [("in.pdf", .pdf .malformed), ("sig.png", .image 7)]
        "in.pdf" "out.pdf" "sig.png" goodBundle "secret" true).1.read "out.pdf" = none ∧
    (dtr_sign_pdf_sync_incharge [("in.pdf", .pdf .malformed), ("sig.png", .image 7)]
        "in.pdf" "out.pdf" "sig.png" goodBundle "secret" true).1.read "temp_key.pem" =
      some (.keyPem ⟨11, .PEM, .PKCS8, .noEncryption⟩) :=
  ⟨rfl, rfl, rfl, rfl, rfl⟩

/-- C7: credential extraction with a wrong password or a malformed bundle
always fails with the invalid-credential error and leaves the filesystem
untouched, never succeeding; with the correct password on a well-formed
bundle it succeeds, and the staged certificate and key contents are a
function of the bundle alone — identical across any two invocations. The
PKCS#12 decoder itself is a library primitive modelled from the spec. -/
theorem extract_password_gate (fs fs' : FS) (b : P12Bundle) (pw : String) :
    (pw ≠ b.password → extract_cert_and_key fs b pw = (fs, .error .invalidCredential)) ∧
    (b.wellFormed = false → extract_cert_and_key fs b pw = (fs, .error .invalidCredential)) ∧
    (b.wellFormed = true → pw = b.password →
      (extract_cert_and_key fs b pw).2 = .ok ("temp_cert.pem", "temp_key.pem") ∧
      (extract_cert_and_key fs b pw).1.read "temp_cert.pem" =
        some (.certPem ⟨b.certBytes, Encoding.PEM⟩) ∧
      (extract_cert_and_key fs b pw).1.read "temp_key.pem" =
        some (.keyPem ⟨b.keyBytes, Encoding.PEM, PrivateFormat.PKCS8, KeyEncryption.noEncryption⟩) ∧
      (extract_cert_and_key fs b pw).1.read "temp_cert.pem" =
        (extract_cert_and_key fs' b pw).1.read "temp_cert.pem" ∧
      (extract_cert_and_key fs b pw).1.read "temp_key.pem" =
        (extract_cert_and_key fs' b pw).1.read "temp_key.pem") := by
  refine ⟨fun hne => ?_, fun hwf => ?_, fun hw hp => ?_⟩
  · simp [extract_cert_and_key, load_key_and_certificates, hne]
  · simp [extract_cert_and_key, load_key_and_certificates, hwf]
  · subst hp
    simp [extract_cert_and_key, load_key_and_certificates, hw, FS.write, FS.read]

/-- Witness for C7: a wrong password fails on the good bundle, the right
password succeeds. -/
theorem extract_password_gate_w :
    ("wrong" ≠ goodBundle.password ∧
      extract_cert_and_key [] goodBundle "wrong" = ([], .error .invalidCredential)) ∧
    (goodBundle.wellFormed = true ∧ "secret" = goodBundle.password ∧
      (extract_cert_and_key [] goodBundle "secret").2 = .ok ("temp_cert.pem", "temp_key.pem")) :=
  ⟨⟨by decide, (extract_password_gate [] [] goodBundle "wrong").1 (by decide)⟩,
   ⟨by decide, by decide,
    ((extract_password_gate [] [("x", .image 3)] goodBundle "secret").2.2 rfl rfl).1⟩⟩

/-- C10: every successful extraction returns exactly the constant relative
paths `temp_cert.pem` / `temp_key.pem`, regardless of filesystem, bundle or
password, and the file at the key path holds the bundle's private key
serialized as PKCS8 PEM with no encryption. -/
theorem extract_constant_paths_pkcs8 (fs : FS) (b : P12Bundle) (pw : String)
    (hw : b.wellFormed = true) (hp : pw = b.password) :
    (extract_cert_and_key fs b pw).2 = .ok ("temp_cert.pem", "temp_key.pem") ∧
    (extract_cert_and_key fs b pw).1.read "temp_key.pem" =
      some (.keyPem ⟨b.keyBytes, Encoding.PEM, PrivateFormat.PKCS8, KeyEncryption.noEncryption⟩) := by
  subst hp
  simp [extract_cert_and_key, load_key_and_certificates, hw, FS.write, FS.read]

/-- Witness for C10: the constant paths and PKCS8 key serialization on a
concrete filesystem and bundle. -/
theorem extract_constant_paths_pkcs8_w :
    (goodBundle.wellFormed = true ∧ "secret" = goodBundle.password) ∧
    (extract_cert_and_key [("y.pdf", .pdf .malformed)] goodBundle "secret").2 =
      .ok ("temp_cert.pem", "temp_key.pem") ∧
    (extract_cert_and_key [("y.pdf", .pdf .malformed)] goodBundle "secret").1.read "temp_key.pem" =
      some (.keyPem ⟨11, Encoding.PEM, PrivateFormat.PKCS8, KeyEncryption.noEncryption⟩) :=
  ⟨⟨by decide, by decide⟩,
   extract_constant_paths_pkcs8 [("y.pdf", .pdf .malformed)] goodBundle "secret" (by decide) (by decide)⟩

/-- Counterexample to C9 as stated: the leave-owner operation's field name
`OwnerSignature2` is NOT distinct from the DTR owner operation's created
names — the DTR owner run creates that very name — and a repeated DTR owner
invocation on its own output re-appends `OwnerSignature1` although a field
of that name already exists in the lineage. -/
theorem lineage_name_collision :
    (leaveFields leave_application_sign_pdf_sync_owner ⟨[]⟩).map SigFieldSpec.name =
      ["OwnerSignature2"] ∧
    "OwnerSignature2" ∈ (ownerFields true ⟨[]⟩).map SigFieldSpec.name ∧
    "OwnerSignature1" ∈ (PdfDoc.mk (outEvents (ownerRun true ⟨[]⟩))).fieldNames ∧
    "OwnerSignature1" ∈
      (ownerFields true ⟨outEvents (ownerRun true ⟨[]⟩)⟩).map SigFieldSpec.name := by
  refine ⟨?_, ?_, ?_, ?_⟩ <;> decide

/-- C9 amended: field names are unique within each single invocation (the
two DTR roles create pairwise-distinct names, each leave role one name, and
the incharge guard keeps a pre-existing `InchargeSignature1` from being
re-created), but uniqueness does not extend across invocations of different
operations in one lineage. -/
theorem lineage_names_per_invocation (wm : Bool) (d : PdfDoc) :
    ((ownerFields wm d).map SigFieldSpec.name).Nodup ∧
    ((inchargeFields wm d).map SigFieldSpec.name).Nodup ∧
    ((leaveFields leave_application_sign_pdf_sync_owner d).map SigFieldSpec.name).Nodup ∧
    ((leaveFields leave_application_sign_pdf_sync_head d).map SigFieldSpec.name).Nodup ∧
    ((leaveFields leave_application_sign_pdf_sync_sao d).map SigFieldSpec.name).Nodup ∧
    ((leaveFields leave_application_sign_pdf_sync_cao d).map SigFieldSpec.name).Nodup ∧
    ("InchargeSignature1" ∈ d.fieldNames →
      "InchargeSignature1" ∉ (inchargeFields wm d).map SigFieldSpec.name) := by
  refine ⟨by simp [ownerFields_eq], ?_,
    by simp [leave_application_sign_pdf_sync_owner, leaveFields_eq "OwnerSignature2" 330 535 d],
    by simp [leave_application_sign_pdf_sync_head, leaveFields_eq "HeadSignature2" 330 355 d],
    by simp [leave_application_sign_pdf_sync_sao, leaveFields_eq "SaoSignature2" 50 355 d],
    by simp [leave_application_sign_pdf_sync_cao, leaveFields_eq "CaoSignature2" 200 155 d],
    fun h => by simp [inchargeFields_reentrant_eq _ _ h]⟩
  by_cases h : "InchargeSignature1" ∈ d.fieldNames
  · simp [inchargeFields_reentrant_eq _ _ h]
  · simp [inchargeFields_fresh_eq _ _ h]

/-- Witness for the amended C9: per-invocation uniqueness on a document
already holding `InchargeSignature1`. -/
theorem lineage_names_per_invocation_w :
    ("InchargeSignature1" ∈ PdfDoc.fieldNames ⟨[.field ⟨"InchargeSignature1", ⟨50, 70, 250, 130⟩⟩]⟩) ∧
    ((ownerFields true ⟨[.field ⟨"InchargeSignature1", ⟨50, 70, 250, 130⟩⟩]⟩).map SigFieldSpec.name).Nodup ∧
    "InchargeSignature1" ∉
      (inchargeFields true ⟨[.field ⟨"InchargeSignature1", ⟨50, 70, 250, 130⟩⟩]⟩).map SigFieldSpec.name :=
  ⟨by decide,
   (lineage_names_per_invocation true ⟨[.field ⟨"InchargeSignature1", ⟨50, 70, 250, 130⟩⟩]⟩).1,
   (lineage_names_per_invocation true ⟨[.field ⟨"InchargeSignature1", ⟨50, 70, 250, 130⟩⟩]⟩).2.2.2.2.2.2
     (by decide)⟩
